import Mathlib

/-!
Verification of the incremental ingestion orchestrator ("parser") of this
repository against its natural-language specification.

The Python sources are shallowly embedded:
* JSON-like payload values are `Value` (the payloads the parser builds are
  flat: null / bool / int / string / list-of-strings).
* Python dicts are insertion-ordered association lists `List (String × _)`
  with `dictGet` / `dictSet` / `dictUpd` mirroring `d.get`, `d[k] = v` and
  `d.update` (update-in-place, append-new-keys semantics).
* `parser/utils/__init__.py`: `compute_diff`, `normalize_video_source`,
  `generate_source_id`, `generate_episode_source_id`,
  `exponential_backoff_with_jitter` (the `random.random()` draw is passed
  explicitly as an argument `u`).
* `parser/clients/__init__.py` (`HTTPClient._request`): the tenacity retry
  loop (`stop_after_attempt(MAX_RETRIES + 1)`, `wait_exponential`, the custom
  retry predicate `_should_retry`, `reraise=True`) over a stream of
  per-attempt outcomes, plus the event trace of rate-limiter acquisitions and
  network attempts, and the trace of inter-attempt delays.
* `parser/state.py` (`StateManager`): `mark_anime_processed`,
  `get_anime_entry`, and the sequence of file-system operations performed by
  `save_state` (mkdir of the parent, then `open(path, "w")` — which
  truncates — then the serialized write).
* `parser/config.py`: the declared `Settings` fields (pydantic,
  `extra="ignore"`), so that attribute reads resolve declared names only —
  in particular `settings.MAX_CONSECUTIVE_ERRORS`, which the class does not
  declare, models as a failed lookup (`AttributeError`).
* `parser/orchestrator.py`: `process_anime` (with an always-succeeding
  downstream API, as in the mock scenarios of the spec) and the page-crawl
  loop of `run`, whose consecutive-failure breaker check reads the
  undeclared setting above on every iteration.

Python string methods used by `normalize_video_source` (`strip`, `lower`,
`endswith`) are embedded character-by-character so that all definitions
evaluate inside the kernel.
-/

set_option autoImplicit false

namespace Ani

/-! ## JSON-like values and Python dict operations -/

/-- Flat JSON-like payload values used by the parser's records. -/
inductive Value where
  | null
  | bool (b : Bool)
  | int (n : Int)
  | str (s : String)
  | strList (xs : List String)
deriving DecidableEq

/-- A Python dict of payload values, as an insertion-ordered association
list. -/
abbrev Record := List (String × Value)

/-- Python `d.get(k)` returning `None` as `none`: first binding of `k`. -/
def dictGet {β : Type} : List (String × β) → String → Option β
  | [], _ => none
  | (k1, v1) :: rest, k => if k1 = k then some v1 else dictGet rest k

/-- Python `d[k] = v`: replace the binding in place, else append. -/
def dictSet {β : Type} : List (String × β) → String → β → List (String × β)
  | [], k, v => [(k, v)]
  | (k1, v1) :: rest, k, v =>
      if k1 = k then (k1, v) :: rest else (k1, v1) :: dictSet rest k v

/-- Python `d.update(kvs)`: set every binding of `kvs` in order. -/
def dictUpd {β : Type} (d : List (String × β)) (kvs : List (String × β)) :
    List (String × β) :=
  kvs.foldl (fun acc kv => dictSet acc kv.1 kv.2) d

/-- Python `old.get(key)` inside `compute_diff`: an absent key reads as
`None`. -/
def getOrNull (d : Record) (k : String) : Value :=
  (dictGet d k).getD Value.null

/-! ## The diff engine: `compute_diff` (parser/utils/__init__.py:60-78) -/

/-- Embedding of `compute_diff(new, old)`.  A changed key is reported as
`(key, old value, new value)` with Python `None` rendered as `Value.null`;
the output dict is in the iteration order of `new`, exactly as in the
source.  The Python guard `if not old` is true both for `None` and for the
empty dict, hence the two all-keys branches. -/
def compute_diff (new : Record) (old : Option Record) :
    List (String × Value × Value) :=
  match old with
  | none => new.map (fun kv => (kv.1, Value.null, kv.2))
  | some o =>
      if o = [] then
        new.map (fun kv => (kv.1, Value.null, kv.2))
      else
        new.filterMap (fun kv =>
          if getOrNull o kv.1 ≠ kv.2 then some (kv.1, getOrNull o kv.1, kv.2)
          else none)

/-- The diff the spec sentence describes for a pair of records: exactly the
keys of `new` whose value differs from `old.get(key)`, keys only present in
`old` ignored.  (Stated from the spec's words, to be compared with
`compute_diff`.) -/
def specForwardDiff (new old : Record) : List (String × Value × Value) :=
  new.filterMap (fun kv =>
    if getOrNull old kv.1 ≠ kv.2 then some (kv.1, getOrNull old kv.1, kv.2)
    else none)

/-! ## Python string primitives (character-level embeddings) -/

/-- Python `str.strip` whitespace test (ASCII whitespace). -/
def pyIsSpace (c : Char) : Bool :=
  c = ' ' || c = '\t' || c = '\n' || c = '\r' || c = '\x0b' || c = '\x0c'

/-- Python `url.strip()`. -/
def pyStrip (s : String) : String :=
  String.mk (((s.data.dropWhile pyIsSpace).reverse.dropWhile pyIsSpace).reverse)

/-- ASCII lower-casing of one character, as Python `str.lower` does on the
URLs handled here. -/
def pyLowerChar (c : Char) : Char :=
  if 'A' ≤ c && c ≤ 'Z' then Char.ofNat (c.toNat + 32) else c

/-- Python `s.lower()`. -/
def pyLower (s : String) : String := String.mk (s.data.map pyLowerChar)

/-- Python `s.endswith(suffix)`. -/
def pyEndsWith (s suffix : String) : Bool := suffix.data.isSuffixOf s.data

/-! ## Normalization utilities (parser/utils/__init__.py) -/

/-- Embedding of `generate_source_id(shikimori_id) = str(shikimori_id)`. -/
def generate_source_id (shikimori_id : ℕ) : String := toString shikimori_id

/-- Embedding of `generate_episode_source_id(source_id, episode_number)`. -/
def generate_episode_source_id (source_id : String) (episode_number : ℕ) :
    String :=
  source_id ++ ":" ++ toString episode_number

/-- Embedding of `normalize_video_source(url, source_name, priority)`
(parser/utils/__init__.py:81-110).  `url = none` models Python `None` (and
any non-`str` value, both rejected by the same guard); the returned payload
dict is built with exactly the source's keys. -/
def normalize_video_source (url : Option String) (source_name : String)
    (priority : Int) : Option Record :=
  match url with
  | none => none
  | some u =>
      if u = "" then none
      else
        let trimmed := pyStrip u
        if trimmed = "" then none
        else if pyEndsWith (pyLower trimmed) ".m3u8" = false then none
        else
          some [("type", Value.str "hls"), ("url", Value.str trimmed),
                ("source_name", Value.str source_name),
                ("priority", Value.int priority)]

/-- Embedding of `exponential_backoff_with_jitter(attempt, base, max)`:
`min(base * 2 ** attempt, max) * random.random()`, with the uniform draw
`u ∈ [0,1)` passed explicitly. -/
def exponential_backoff_with_jitter (attempt : ℕ) (base_seconds max_seconds u : ℚ) : ℚ :=
  (min (base_seconds * 2 ^ attempt) max_seconds) * u

/-! ## State manager (parser/state.py) -/

/-- A value stored in one `processed_anime` entry: either a plain payload
value (`title`, `episodes_count`, `timestamp`), one payload record
(`anime_payload`), or a map of payload records (`episodes`, `videos`). -/
abbrev PMap := List (String × Record)

inductive EVal where
  | val (v : Value)
  | record (r : Record)
  | pmap (m : PMap)
deriving DecidableEq

/-- One persisted state entry (Python dict). -/
abbrev EDict := List (String × EVal)

/-- The `processed_anime` map: source id → state entry. -/
abbrev StateDict := List (String × EDict)

/-- The persisted crawl state (`last_run`, `last_page`, `processed_anime`). -/
structure CrawlState where
  last_run : Option String
  last_page : ℕ
  processed_anime : StateDict
deriving DecidableEq

/-- Embedding of `StateManager.get_anime_entry`: the stored entry, or an
empty dict when absent (parser/state.py:121-131). -/
def get_anime_entry (processed : StateDict) (source_id : String) : EDict :=
  (dictGet processed source_id).getD []

/-- Embedding of `StateManager.mark_anime_processed`
(parser/state.py:75-107): start from the existing entry (empty when absent),
`update` it with `title` / `episodes_count` / `timestamp`, then `update` it
with those of `anime_payload` / `episodes` / `videos` that are not `None`,
and store the result under `source_id`.  `now` is the
`datetime.utcnow().isoformat()` timestamp, passed explicitly. -/
def mark_anime_processed (processed : StateDict) (source_id : String)
    (title : Value) (episodes_count : ℕ) (anime_payload : Option Record)
    (episodes_payload videos_payload : Option PMap) (now : String) :
    StateDict :=
  let entry := (dictGet processed source_id).getD []
  let entry := dictUpd entry
    [("title", EVal.val title),
     ("episodes_count", EVal.val (Value.int episodes_count)),
     ("timestamp", EVal.val (Value.str now))]
  let optional_fields : List (String × Option EVal) :=
    [("anime_payload", anime_payload.map EVal.record),
     ("episodes", episodes_payload.map EVal.pmap),
     ("videos", videos_payload.map EVal.pmap)]
  let entry := dictUpd entry
    (optional_fields.filterMap (fun kv => kv.2.map (fun v => (kv.1, v))))
  dictSet processed source_id entry

/-- The entry `mark_anime_processed` would produce with no pre-existing
record for the id — "the new entry" in the words of the spec's full-replace
claim. -/
def fresh_entry (title : Value) (episodes_count : ℕ)
    (anime_payload : Option Record) (episodes_payload videos_payload : Option PMap)
    (now : String) : EDict :=
  get_anime_entry
    (mark_anime_processed [] "x" title episodes_count anime_payload
      episodes_payload videos_payload now) "x"

/-- File-system operations performed by `StateManager.save_state`
(parser/state.py:52-73). -/
inductive FsOp where
  | mkdirParents
  | openTruncate
  | writeChunk (content : String)
deriving DecidableEq

/-- The operation sequence of `save_state`: create the parent directory,
open the state path with mode `"w"` (which truncates the file in place),
then write the serialized JSON.  No temporary file and no rename appear in
the source. -/
def save_state_ops (serialized : String) : List FsOp :=
  [FsOp.mkdirParents, FsOp.openTruncate, FsOp.writeChunk serialized]

/-- Content of the state file after executing a prefix of the operations,
starting from the previously persisted snapshot. -/
def diskAfter (previous : String) (ops : List FsOp) : String :=
  ops.foldl
    (fun disk op =>
      match op with
      | FsOp.mkdirParents => disk
      | FsOp.openTruncate => ""
      | FsOp.writeChunk c => disk ++ c)
    previous

/-! ## The retrying HTTP client (parser/clients/__init__.py) -/

/-- Outcome of one network attempt inside `_do_request`: a 2xx response
(`ok`), an `httpx.HTTPStatusError` raised by `raise_for_status` with the
given status code, one of the three transport errors the client treats as
retryable (`httpx.TimeoutException`, `httpx.ConnectError`,
`httpx.RemoteProtocolError`), or any other request exception. -/
inductive Outcome where
  | ok
  | status (code : ℕ)
  | timeoutErr
  | connectErr
  | protoErr
  | otherErr
deriving DecidableEq

/-- Embedding of `HTTPClient._should_retry` composed with
`should_retry_exception` (no exception → no retry): retry on 429 or ≥ 500,
on the three transport errors, and on nothing else. -/
def should_retry : Outcome → Bool
  | Outcome.ok => false
  | Outcome.status code => code == 429 || decide (500 ≤ code)
  | Outcome.timeoutErr => true
  | Outcome.connectErr => true
  | Outcome.protoErr => true
  | Outcome.otherErr => false

/-- The tenacity attempt loop around `_do_request`, with
`stop_after_attempt maxAttempts`, the custom retry predicate and
`reraise=True`: starting at attempt number `n` (1-indexed), return the
number of the final attempt and its outcome (`reraise=True` re-raises the
last error when attempts are exhausted; a non-retryable outcome is returned
or re-raised immediately).  `out i` is the outcome the endpoint produces on
attempt `i`; the fuel always suffices because the loop stops at
`maxAttempts`. -/
def tenacityLoop (out : ℕ → Outcome) (maxAttempts : ℕ) :
    ℕ → ℕ → ℕ × Outcome
  | 0, n => (n, out n)
  | fuel + 1, n =>
      if should_retry (out n) = false then (n, out n)
      else if maxAttempts ≤ n then (n, out n)
      else tenacityLoop out maxAttempts fuel (n + 1)

/-- One call of `HTTPClient._request` with `settings.MAX_RETRIES =
maxRetries`: the tenacity loop runs with `stop_after_attempt(maxRetries +
1)` starting at attempt 1. -/
def http_request (out : ℕ → Outcome) (maxRetries : ℕ) : ℕ × Outcome :=
  tenacityLoop out (maxRetries + 1) maxRetries 1

/-- The attempt numbers actually issued by the loop, in order. -/
def attemptTrace (out : ℕ → Outcome) (maxAttempts : ℕ) :
    ℕ → ℕ → List ℕ
  | 0, n => [n]
  | fuel + 1, n =>
      if should_retry (out n) = false then [n]
      else if maxAttempts ≤ n then [n]
      else n :: attemptTrace out maxAttempts fuel (n + 1)

/-- Events observable during one `_request` call: a `RateLimiter.acquire()`
call, or a network attempt with its 1-indexed attempt number. -/
inductive Ev where
  | acq
  | att (n : ℕ)
deriving DecidableEq

/-- The event trace of `HTTPClient._request`: one `acquire()` when a rate
limiter is configured (lines 91-92 of the source, before the retry-decorated
`_do_request` is defined and invoked), followed by the attempts of the
tenacity loop — which itself never calls the rate limiter. -/
def request_events (hasLimiter : Bool) (out : ℕ → Outcome) (maxRetries : ℕ) :
    List Ev :=
  (if hasLimiter then [Ev.acq] else []) ++
    (attemptTrace out (maxRetries + 1) maxRetries 1).map Ev.att

/-- Embedding of tenacity's `wait_exponential(multiplier, max, exp_base=2,
min=0)` evaluated at `attempt_number`:
`max(max(0, min), min(multiplier * 2 ** (attempt_number - 1), max))` — a
deterministic wait, no randomness. -/
def tenacityWaitExponential (multiplier maxW minW : ℚ) (attemptNumber : ℕ) : ℚ :=
  max (max 0 minW) (min (multiplier * 2 ^ (attemptNumber - 1)) maxW)

/-- The wait the client configures:
`wait_exponential(multiplier=BACKOFF_BASE_SECONDS, max=BACKOFF_MAX_SECONDS)`
with tenacity's default `min=0`. -/
def http_retry_wait (mult maxW : ℚ) (attemptNumber : ℕ) : ℚ :=
  tenacityWaitExponential mult maxW 0 attemptNumber

/-- The delays slept between consecutive attempts of one `_request` call:
tenacity sleeps `wait(retry_state)` after each retried attempt, with
`attempt_number` the number of the attempt that just failed. -/
def delayTrace (out : ℕ → Outcome) (maxAttempts : ℕ) (mult maxW : ℚ) :
    ℕ → ℕ → List ℚ
  | 0, _ => []
  | fuel + 1, n =>
      if should_retry (out n) = false then []
      else if maxAttempts ≤ n then []
      else http_retry_wait mult maxW n ::
        delayTrace out maxAttempts mult maxW fuel (n + 1)

/-! ## The crawl loop of `ParserOrchestrator.run`
(parser/orchestrator.py:260-355) -/

/-- The field names the pydantic `Settings` class declares
(parser/parser/config.py); its `model_config` uses `extra="ignore"`, so no
undeclared name ever becomes an attribute. -/
def settings_declared_names : List String :=
  ["BACKEND_BASE_URL", "INTERNAL_TOKEN", "CONCURRENCY", "RATE_LIMIT_RPS",
   "HTTP_TIMEOUT_SECONDS", "MAX_RETRIES", "BACKOFF_BASE_SECONDS",
   "BACKOFF_MAX_SECONDS", "KODIK_API_TOKEN", "SHIKIMORI_BASE_URL",
   "KODIK_BASE_URL", "STATE_PATH", "SOURCE_NAME"]

/-- The integer-typed `Settings` fields with their defaults
(parser/parser/config.py).  Attribute access on the model resolves declared
fields only; `dictGet … = none` models the `AttributeError` a pydantic
model with `extra="ignore"` raises for any other name. -/
def settings_int_attrs : List (String × ℕ) :=
  [("CONCURRENCY", 4), ("HTTP_TIMEOUT_SECONDS", 30), ("MAX_RETRIES", 3)]

/-- The value `run()` reads at orchestrator.py:272 for the circuit-breaker
check: `settings.MAX_CONSECUTIVE_ERRORS`.  The name is not among the
declared fields, so the lookup fails — the attribute read raises
`AttributeError`. -/
def settings_MAX_CONSECUTIVE_ERRORS : Option ℕ :=
  dictGet settings_int_attrs "MAX_CONSECUTIVE_ERRORS"

/-- Python truthiness of `max_pages and page > max_pages`. -/
def maxPagesExceeded (max_pages : Option ℕ) (page : ℕ) : Bool :=
  match max_pages with
  | none => false
  | some m => decide (0 < m) && decide (m < page)

/-- The page loop of `run`, abstracted over the catalog source: `fetch p`
is `None` on a failed/empty `list_anime` response, otherwise
`(len(results), total)`; `succ p` is the number of entities of page `p`
whose `process_anime` returned `True`.  Returns the list of pages fetched,
in order.  One loop iteration: check `max_pages`; then the circuit-breaker
check evaluates `settings.MAX_CONSECUTIVE_ERRORS` — when that lookup is
`none` the read raises `AttributeError`, which the `except` at
orchestrator.py:350 catches, ending the run with no further page fetched;
with a threshold value present, compare it against the consecutive-error
counter, fetch, break on no results, process the page, reset or bump the
counter, persist state, then stop when `page * 100 >= total`. -/
def crawl_pages (fetch : ℕ → Option (ℕ × ℕ)) (succ : ℕ → ℕ)
    (max_pages : Option ℕ) :
    Option ℕ → ℕ → ℕ → ℕ → List ℕ
  | _, 0, _, _ => []
  | none, _ + 1, page, _ =>
      if maxPagesExceeded max_pages page then [] else []
  | some max_consecutive_errors, fuel + 1, page, consecutive_errors =>
      if maxPagesExceeded max_pages page then []
      else if max_consecutive_errors ≤ consecutive_errors then []
      else
        match fetch page with
        | none => []
        | some (results_len, total) =>
            if results_len = 0 then []
            else
              let page_success := succ page
              let consec :=
                if 0 < page_success then 0 else consecutive_errors + 1
              page ::
                (if total ≤ page * 100 then []
                 else crawl_pages fetch succ max_pages
                   (some max_consecutive_errors) fuel (page + 1) consec)

/-- One `run()` call: the page loop starts at page 1 with a zero
consecutive-error counter, its breaker threshold being whatever the
`settings.MAX_CONSECUTIVE_ERRORS` read produces. -/
def parser_run (fetch : ℕ → Option (ℕ × ℕ)) (succ : ℕ → ℕ)
    (max_pages : Option ℕ) (fuel : ℕ) : List ℕ :=
  crawl_pages fetch succ max_pages settings_MAX_CONSECUTIVE_ERRORS fuel 1 0

/-! ## The per-entity pipeline of `ParserOrchestrator.process_anime`
(parser/orchestrator.py:59-245), with an always-succeeding import API -/

/-- Import-API calls issued by the pipeline. -/
inductive Call where
  | importAnime (payload : Record)
  | importEpisodes (anime_source_id : String) (episodes : List Record)
  | importVideo (source_episode_id : String) (player : Record)
deriving DecidableEq

/-- One parsed episode, as produced by `KodikClient.parse_episodes`: its
number, optional title, and the `link` of each translation in order. -/
structure Ep where
  number : ℕ
  title : Option String
  links : List (Option String)
deriving DecidableEq

def optStrVal : Option String → Value
  | none => Value.null
  | some s => Value.str s

/-- Embedding of `_build_episode_payload` (parser/orchestrator.py:31-38). -/
def build_episode_payload (episode_source_id : String) (ep : Ep)
    (is_available : Bool) : Record :=
  [("source_episode_id", Value.str episode_source_id),
   ("number", Value.int ep.number),
   ("title", optStrVal ep.title),
   ("is_available", Value.bool is_available)]

/-- Embedding of `_video_key` (parser/orchestrator.py:22-28): `none` models
the `ValueError` raised when `url` or `source_name` is missing or falsy
(the players reaching it are `normalize_video_source` outputs, whose fields
are always non-empty strings). -/
def video_key (episode_source_id : String) (player : Record) : Option String :=
  match dictGet player "url", dictGet player "source_name" with
  | some (Value.str url), some (Value.str source_name) =>
      if url = "" || source_name = "" then none
      else some (episode_source_id ++ "|" ++ url ++ "|" ++ source_name)
  | _, _ => none

/-- The per-episode dedup of normalized players by `_video_key` with the
`seen_keys` set (parser/orchestrator.py:144-158); `none` propagates a
`_video_key` error to the surrounding `try`. -/
def dedupe_videos (episode_source_id : String) :
    List Record → List String → Option (List Record)
  | [], _ => some []
  | player :: rest, seen =>
      match video_key episode_source_id player with
      | none => none
      | some key =>
          if key ∈ seen then dedupe_videos episode_source_id rest seen
          else
            match dedupe_videos episode_source_id rest (key :: seen) with
            | none => none
            | some l => some (player :: l)

/-- The first episode loop (parser/orchestrator.py:140-171): returns the
`episode_videos` map, the `episodes_for_import` batch and the updated
`episodes_state`. -/
def episodesLoop (source_id : String) :
    List Ep → List (String × List Record) → List Record → PMap →
    Option (List (String × List Record) × List Record × PMap)
  | [], episode_videos, episodes_for_import, episodes_state =>
      some (episode_videos, episodes_for_import, episodes_state)
  | ep :: rest, episode_videos, episodes_for_import, episodes_state =>
      let episode_source_id := generate_episode_source_id source_id ep.number
      let raw := ep.links.enum.filterMap
        (fun p => normalize_video_source p.2 "kodik" (Int.ofNat p.1))
      match dedupe_videos episode_source_id raw [] with
      | none => none
      | some normalized_videos =>
          let episode_videos :=
            dictSet episode_videos episode_source_id normalized_videos
          let is_available := !normalized_videos.isEmpty
          let episode_payload :=
            build_episode_payload episode_source_id ep is_available
          let previous_episode_payload :=
            dictGet episodes_state episode_source_id
          let ep_diff := compute_diff episode_payload previous_episode_payload
          if previous_episode_payload = none ∨ ep_diff ≠ [] then
            episodesLoop source_id rest episode_videos
              (episodes_for_import ++ [episode_payload])
              (dictSet episodes_state episode_source_id episode_payload)
          else
            episodesLoop source_id rest episode_videos episodes_for_import
              episodes_state

/-- The inner video-import loop over one episode's players
(parser/orchestrator.py:200-218): unchanged players are skipped; imported
players (the import API succeeds in this scenario) are recorded both in
`videos_state` and in `latest_video_payloads`. -/
def videosLoopPlayers (episode_source_id : String) :
    List Record → PMap → PMap → List Call →
    Option (PMap × PMap × List Call)
  | [], videos_state, latest, calls => some (videos_state, latest, calls)
  | player :: rest, videos_state, latest, calls =>
      match video_key episode_source_id player with
      | none => none
      | some key =>
          let previous_video_payload := dictGet videos_state key
          let video_diff := compute_diff player previous_video_payload
          if previous_video_payload ≠ none ∧ video_diff = [] then
            videosLoopPlayers episode_source_id rest videos_state latest calls
          else
            videosLoopPlayers episode_source_id rest
              (dictSet videos_state key player)
              (dictSet latest key player)
              (calls ++ [Call.importVideo episode_source_id player])

/-- The outer video loop over episodes (parser/orchestrator.py:189-218). -/
def videosLoopEps (source_id : String)
    (episode_videos : List (String × List Record)) :
    List Ep → PMap → PMap → List Call → Option (PMap × PMap × List Call)
  | [], videos_state, latest, calls => some (videos_state, latest, calls)
  | ep :: rest, videos_state, latest, calls =>
      let episode_source_id := generate_episode_source_id source_id ep.number
      let videos_for_episode :=
        (dictGet episode_videos episode_source_id).getD []
      match videosLoopPlayers episode_source_id videos_for_episode
          videos_state latest calls with
      | none => none
      | some (videos_state, latest, calls) =>
          videosLoopEps source_id episode_videos rest videos_state latest calls

/-- Embedding of `process_anime` for one entity against a mock source whose
responses the arguments fix: `anime_data` is the parsed Shikimori metadata
(`none` = missing metadata), `kodik_eps` the parsed Kodik episodes (`none` =
fetch failure, `some []` = no episodes).  Every import-API call succeeds, as
in the spec's idempotence scenario.  Returns (success flag, import calls
made in order, updated `processed_anime` map). -/
def process_anime (anime_data : Option Record) (kodik_eps : Option (List Ep))
    (processed : StateDict) (source_id : String) (now : String) :
    Bool × List Call × StateDict :=
  let previous_entry := get_anime_entry processed source_id
  match anime_data with
  | none => (false, [], processed)
  | some ad =>
      match dictGet ad "title" with
      | none => (false, [], processed)
      | some titleV =>
          let anime_payload : Record :=
            [("title", titleV),
             ("alternative_titles", getOrNull ad "alternative_titles"),
             ("description", getOrNull ad "description"),
             ("year", getOrNull ad "year"),
             ("status", getOrNull ad "status"),
             ("poster", getOrNull ad "poster"),
             ("genres", getOrNull ad "genres"),
             ("source_id", getOrNull ad "source_id")]
          let previous_anime_payload : Option Record :=
            match dictGet previous_entry "anime_payload" with
            | some (EVal.record r) => some r
            | _ => none
          let anime_diff := compute_diff anime_payload previous_anime_payload
          let animeCalls : List Call :=
            if previous_anime_payload = none ∨ anime_diff ≠ [] then
              [Call.importAnime ad]
            else []
          match kodik_eps with
          | none => (false, animeCalls, processed)
          | some [] => (false, animeCalls, processed)
          | some eps =>
              let episodes_state : PMap :=
                match dictGet previous_entry "episodes" with
                | some (EVal.pmap m) => m
                | _ => []
              let videos_state : PMap :=
                match dictGet previous_entry "videos" with
                | some (EVal.pmap m) => m
                | _ => []
              match episodesLoop source_id eps [] [] episodes_state with
              | none => (false, animeCalls, processed)
              | some (episode_videos, episodes_for_import, episodes_state) =>
                  let epCalls : List Call :=
                    if episodes_for_import ≠ [] then
                      [Call.importEpisodes source_id episodes_for_import]
                    else []
                  match videosLoopEps source_id episode_videos eps
                      videos_state [] [] with
                  | none => (false, animeCalls ++ epCalls, processed)
                  | some (_, latest_video_payloads, videoCalls) =>
                      let latest_episode_payloads := episodes_state
                      let processed :=
                        mark_anime_processed processed source_id titleV
                          eps.length (some anime_payload)
                          (some latest_episode_payloads)
                          (some latest_video_payloads) now
                      (true, animeCalls ++ epCalls ++ videoCalls, processed)

/-- A single-entity mock catalog/metadata source, constant across runs. -/
structure MockWorld where
  anime_data : Option Record
  episodes : Option (List Ep)
deriving DecidableEq

/-- One orchestrator run against the one-entity, one-page mock source,
mirroring `run()` (orchestrator.py:260-355).  The first loop iteration does
not break on `max_pages` at page 1; it then reads
`settings.MAX_CONSECUTIVE_ERRORS` for the breaker check.  When that lookup
fails (`none` — the field is undeclared) the read raises `AttributeError`,
the `except` at line 350 logs it and the run ends: nothing is fetched,
imported or saved, the persisted state is untouched.  Only with a declared
threshold would the run process the entity, then `set_last_page(1)` and
`save_state` (which stamps `last_run`), the loop stopping because
`page * 100 >= total`. -/
def run_once (w : MockWorld) (st : CrawlState) (source_id : String)
    (now : String) : CrawlState × List Call :=
  match settings_MAX_CONSECUTIVE_ERRORS with
  | none => (st, [])
  | some _ =>
      let r := process_anime w.anime_data w.episodes st.processed_anime
        source_id now
      (⟨some now, 1, r.2.2⟩, r.2.1)

/-- The entry stored for `source_id` right after a `mark_anime_processed`
call. -/
def marked_entry (processed : StateDict) (source_id : String) (title : Value)
    (episodes_count : ℕ) (anime_payload : Option Record)
    (episodes_payload videos_payload : Option PMap) (now : String) : EDict :=
  get_anime_entry
    (mark_anime_processed processed source_id title episodes_count
      anime_payload episodes_payload videos_payload now) source_id

/-! ## Concrete fixtures -/

/-- A previously stored videos map, for the `mark_anime_processed` merge
counterexample. -/
def c6Videos : PMap :=
  [("1:1|https://cdn.example/stream.m3u8|kodik",
    [("url", Value.str "https://cdn.example/stream.m3u8")])]

def c6Payload : Record := [("title", Value.str "T")]

/-- First call: stores a videos snapshot. -/
def c6State1 : StateDict :=
  mark_anime_processed [] "1" (Value.str "T") 2 (some c6Payload) (some [])
    (some c6Videos) "t1"

/-- Second call for the same id with `videos_payload = None`. -/
def c6State2 : StateDict :=
  mark_anime_processed c6State1 "1" (Value.str "T") 2 (some c6Payload)
    (some []) none "t2"

/-- Parsed metadata of the mock entity (the other payload fields read as
null through `.get`). -/
def c1AnimeData : Record :=
  [("title", Value.str "Test Anime"), ("source_id", Value.str "1")]

def c1Eps : List Ep :=
  [⟨1, some "Episode 1", [some "https://cdn.example/stream.m3u8"]⟩]

def c1World : MockWorld := ⟨some c1AnimeData, some c1Eps⟩

/-- The normalized player payload of the mock entity's only video. -/
def c1VideoPayload : Record :=
  [("type", Value.str "hls"), ("url", Value.str "https://cdn.example/stream.m3u8"),
   ("source_name", Value.str "kodik"), ("priority", Value.int 0)]

/-- The canonical payload of the mock entity's only episode. -/
def c1EpisodePayload : Record :=
  [("source_episode_id", Value.str "1:1"), ("number", Value.int 1),
   ("title", Value.str "Episode 1"), ("is_available", Value.bool true)]

/-- A first `process_anime` pass over the mock entity, from an empty
`processed_anime` map — the pipeline as it would run were the crawl loop
able to reach it. -/
def c1Proc1 : Bool × List Call × StateDict :=
  process_anime (some c1AnimeData) (some c1Eps) [] "1" "2026-01-01T00:00:00"

/-- A second identical pass over the state the first one produced. -/
def c1Proc2 : Bool × List Call × StateDict :=
  process_anime (some c1AnimeData) (some c1Eps) c1Proc1.2.2 "1"
    "2026-01-01T00:00:00"

/-- Endpoint returning 500, 500, then 200 on successive attempts. -/
def outFiveHundredTwice : ℕ → Outcome :=
  fun n => if n ≤ 2 then Outcome.status 500 else Outcome.ok

/-- Endpoint returning 404 on every attempt. -/
def outNotFound : ℕ → Outcome := fun _ => Outcome.status 404

/-! ## Dictionary lemmas -/

theorem dictGet_dictSet_self {β : Type} (d : List (String × β)) (k : String)
    (v : β) : dictGet (dictSet d k v) k = some v := by
  induction d with
  | nil => simp [dictGet, dictSet]
  | cons hd tl ih =>
      by_cases h : hd.1 = k
      · simp [dictGet, dictSet, h]
      · simp [dictGet, dictSet, h, ih]

theorem dictGet_dictSet_ne {β : Type} (d : List (String × β)) (k k' : String)
    (v : β) (h : k ≠ k') : dictGet (dictSet d k v) k' = dictGet d k' := by
  induction d with
  | nil => simp [dictGet, dictSet, h]
  | cons hd tl ih =>
      by_cases h1 : hd.1 = k
      · subst h1
        simp [dictGet, dictSet, h]
      · simp [dictGet, dictSet, h1, ih]

/-! ## Diff-engine lemmas -/

theorem compute_diff_none (new : Record) :
    compute_diff new none = new.map (fun kv => (kv.1, Value.null, kv.2)) := rfl

theorem compute_diff_nonempty (new o : Record) (ho : o ≠ []) :
    compute_diff new (some o) = specForwardDiff new o := by
  simp [compute_diff, specForwardDiff, ho]

/-- Membership description of the forward diff against a non-empty old
record. -/
theorem mem_compute_diff_iff (new o : Record) (ho : o ≠ [])
    (k : String) (vo vn : Value) :
    (k, vo, vn) ∈ compute_diff new (some o) ↔
      ((k, vn) ∈ new ∧ vo = getOrNull o k ∧ vo ≠ vn) := by
  rw [compute_diff_nonempty new o ho]
  unfold specForwardDiff
  rw [List.mem_filterMap]
  constructor
  · rintro ⟨⟨k1, v1⟩, hmem, hcond⟩
    by_cases h : getOrNull o k1 ≠ v1
    · rw [if_pos h] at hcond
      simp only [Option.some.injEq, Prod.mk.injEq] at hcond
      obtain ⟨hk, hvo, hvn⟩ := hcond
      subst hk; subst hvo; subst hvn
      exact ⟨hmem, rfl, h⟩
    · simp [h] at hcond
  · rintro ⟨hmem, hvo, hne⟩
    refine ⟨(k, vn), hmem, ?_⟩
    subst hvo
    simp [hne]

/-! ## C3 — diff engine correctness -/

/-- C3 (corrected): the claim's general rule fails for an empty old record:
the source treats `old = {}` (falsy) like `old = None` and reports every
key of the new record, while the claim's rule ("exactly the keys present in
the new record whose value differs from the old record's value for that
key") reports nothing when the new record's only key has value null.  At
`new = {"a": None}`, `old = {}` the code yields `{a: {old: None, new:
None}}`, the claimed rule yields `{}`. -/
theorem C3_forward_diff_counterexample :
    compute_diff [("a", Value.null)] (some []) =
      [("a", Value.null, Value.null)] ∧
    specForwardDiff [("a", Value.null)] [] = [] ∧
    ([("a", Value.null, Value.null)] : List (String × Value × Value)) ≠ [] := by
  refine ⟨rfl, rfl, by simp⟩

/-- C3 (amended): `compute_diff(X, null)` reports every key of `X` with
`old = null`; an empty old record is treated exactly like a null one;
against a NON-EMPTY old record the diff contains exactly the keys of the
new record whose value differs from `old.get(key)` (absent keys reading as
null), keys only present in the old record being ignored; and the spec's
concrete example evaluates as stated. -/
theorem C3_forward_diff (new o : Record) (ho : o ≠ []) (k : String)
    (vo vn : Value) :
    compute_diff new none = new.map (fun kv => (kv.1, Value.null, kv.2)) ∧
    compute_diff new (some []) = compute_diff new none ∧
    ((k, vo, vn) ∈ compute_diff new (some o) ↔
      ((k, vn) ∈ new ∧ vo = getOrNull o k ∧ vo ≠ vn)) ∧
    compute_diff [("a", Value.int 1), ("b", Value.int 3), ("c", Value.int 4)]
        (some [("a", Value.int 1), ("b", Value.int 2)]) =
      [("b", Value.int 2, Value.int 3), ("c", Value.null, Value.int 4)] :=
  ⟨rfl, rfl, mem_compute_diff_iff new o ho k vo vn, by decide⟩

theorem C3_forward_diff_witness :
    ([("x", Value.int 5)] : Record) ≠ [] ∧
    (("b", Value.int 2, Value.int 3) ∈
        compute_diff [("b", Value.int 3)] (some [("x", Value.int 5)]) ↔
      (("b", Value.int 3) ∈ ([("b", Value.int 3)] : Record) ∧
        Value.int 2 = getOrNull [("x", Value.int 5)] "b" ∧
        Value.int 2 ≠ Value.int 3)) :=
  ⟨by decide,
   (C3_forward_diff [("b", Value.int 3)] [("x", Value.int 5)] (by decide)
      "b" (Value.int 2) (Value.int 3)).2.2.1⟩

/-! ## C10 — empty previous snapshot behaves like an absent one -/

/-- C10 (confirmed): `compute_diff(X, {})` equals `compute_diff(X, null)`
(the Python guard `if not old` covers both), every key of `X` being
reported with `old = null`; and the state store's `get_anime_entry` returns
an empty dict for an absent entity. -/
theorem C10_empty_prev_like_null (X : Record) (processed : StateDict)
    (sid : String) (habsent : dictGet processed sid = none) :
    compute_diff X (some []) = compute_diff X none ∧
    compute_diff X (some []) = X.map (fun kv => (kv.1, Value.null, kv.2)) ∧
    get_anime_entry processed sid = [] := by
  refine ⟨rfl, rfl, ?_⟩
  simp [get_anime_entry, habsent]

theorem C10_empty_prev_like_null_witness :
    dictGet ([] : StateDict) "42" = none ∧
    (compute_diff [("a", Value.int 7), ("b", Value.null)] (some []) =
        compute_diff [("a", Value.int 7), ("b", Value.null)] none ∧
      compute_diff [("a", Value.int 7), ("b", Value.null)] (some []) =
        [("a", Value.null, Value.int 7), ("b", Value.null, Value.null)] ∧
      get_anime_entry [] "42" = []) :=
  ⟨rfl, by
    have h := C10_empty_prev_like_null
      [("a", Value.int 7), ("b", Value.null)] [] "42" rfl
    exact ⟨h.1, h.2.1, h.2.2⟩⟩

/-! ## C9 — media URL normalization -/

/-- C9 (corrected): the claim describes a lenient normalizer (protocol
upgrade, resolution-token suffixing, manifest-suffix fallback for other
formats).  The source's `normalize_video_source` is a strict validator: a
plain `.mp4` URL — which the claim says gets a manifest-style URL
constructed for it — yields `None`; so does a protocol-relative URL without
the `.m3u8` suffix, which the claim says is upgraded to `https://`; and a
protocol-relative `.m3u8` URL is returned with its URL unchanged, not
upgraded. -/
theorem C9_lenient_normalize_counterexample :
    normalize_video_source (some "http://x/video.mp4") "kodik" 0 = none ∧
    normalize_video_source (some "//cdn.example/stream.mp4") "kodik" 0 = none ∧
    normalize_video_source (some "//cdn.example/stream.m3u8") "kodik" 0 =
      some [("type", Value.str "hls"),
            ("url", Value.str "//cdn.example/stream.m3u8"),
            ("source_name", Value.str "kodik"),
            ("priority", Value.int 0)] := by
  refine ⟨by decide, by decide, by decide⟩

/-- C9 (amended): `normalize_video_source` returns null for null/empty or
whitespace-only input and for every URL that does not end (after stripping,
case-insensitively) in `.m3u8`; for URLs that do, it returns the payload
with the stripped URL otherwise unchanged (no protocol upgrade, no suffix
construction).  Totality — "never raises" — holds by construction of the
embedding. -/
theorem C9_normalize_strict (u s : String) (p : Int) :
    normalize_video_source none s p = none ∧
    normalize_video_source (some "") s p = none ∧
    (pyStrip u = "" → normalize_video_source (some u) s p = none) ∧
    (pyEndsWith (pyLower (pyStrip u)) ".m3u8" = false →
      normalize_video_source (some u) s p = none) ∧
    (u ≠ "" → pyStrip u ≠ "" →
      pyEndsWith (pyLower (pyStrip u)) ".m3u8" = true →
      normalize_video_source (some u) s p =
        some [("type", Value.str "hls"), ("url", Value.str (pyStrip u)),
              ("source_name", Value.str s), ("priority", Value.int p)]) := by
  refine ⟨rfl, rfl, ?_, ?_, ?_⟩
  · intro h
    by_cases hu : u = ""
    · simp [normalize_video_source, hu]
    · simp [normalize_video_source, hu, h]
  · intro h
    by_cases hu : u = ""
    · simp [normalize_video_source, hu]
    · by_cases ht : pyStrip u = ""
      · simp [normalize_video_source, hu, ht]
      · simp [normalize_video_source, hu, ht, h]
  · intro hu ht hm
    simp [normalize_video_source, hu, ht, hm]

theorem C9_normalize_strict_witness :
    pyStrip " http://x/video.mp4 " ≠ "" ∧
    pyEndsWith (pyLower (pyStrip " http://x/video.mp4 ")) ".m3u8" = false ∧
    normalize_video_source (some " http://x/video.mp4 ") "kodik" 3 = none ∧
    (" https://CDN.example/stream.M3U8" : String) ≠ "" ∧
    pyStrip " https://CDN.example/stream.M3U8" ≠ "" ∧
    pyEndsWith (pyLower (pyStrip " https://CDN.example/stream.M3U8")) ".m3u8" = true ∧
    normalize_video_source (some " https://CDN.example/stream.M3U8") "kodik" 3 =
      some [("type", Value.str "hls"),
            ("url", Value.str "https://CDN.example/stream.M3U8"),
            ("source_name", Value.str "kodik"),
            ("priority", Value.int 3)] :=
  ⟨by decide, by decide,
   (C9_normalize_strict " http://x/video.mp4 " "kodik" 3).2.2.2.1 (by decide),
   by decide, by decide, by decide,
   by
     have h := (C9_normalize_strict " https://CDN.example/stream.M3U8"
       "kodik" 3).2.2.2.2 (by decide) (by decide) (by decide)
     simpa using h⟩

/-! ## C5 — state save atomicity -/

/-- C5 (corrected): `save_state` opens the state file with mode `"w"`,
truncating it in place before writing.  A crash after the truncation and
before the write completes leaves an empty file: the previously persisted
snapshot is destroyed, so no write-then-rename (or equivalent atomic)
mechanism is in use. -/
theorem C5_atomic_save_counterexample :
    2 < (save_state_ops "new-snapshot").length ∧
    diskAfter "old-snapshot" ((save_state_ops "new-snapshot").take 2) = "" ∧
    ("" : String) ≠ "old-snapshot" := by
  refine ⟨by decide, rfl, by decide⟩

/-- C5 (amended): `save_state` writes the serialized state in place — after
all operations the file holds exactly the new snapshot, but at the crash
point between the truncating open and the write the file is empty,
regardless of what valid snapshot was there before.  (Errors raised during
the write are caught and reported as a `False` return, but the on-disk
truncation is not undone.) -/
theorem C5_save_inplace (previous serialized : String) :
    diskAfter previous (save_state_ops serialized) = serialized ∧
    diskAfter previous ((save_state_ops serialized).take 2) = "" := by
  constructor
  · simp [diskAfter, save_state_ops]
  · rfl

/-! ## Retry-loop lemmas -/

theorem tenacityLoop_step_done (out : ℕ → Outcome) (maxAttempts fuel n : ℕ)
    (h1 : should_retry (out n) = false) :
    tenacityLoop out maxAttempts (fuel + 1) n = (n, out n) := by
  rw [tenacityLoop, if_pos h1]

theorem tenacityLoop_step_stop (out : ℕ → Outcome) (maxAttempts fuel n : ℕ)
    (h1 : should_retry (out n) = true) (h2 : maxAttempts ≤ n) :
    tenacityLoop out maxAttempts (fuel + 1) n = (n, out n) := by
  rw [tenacityLoop, if_neg (by simp [h1]), if_pos h2]

theorem tenacityLoop_step_retry (out : ℕ → Outcome) (maxAttempts fuel n : ℕ)
    (h1 : should_retry (out n) = true) (h2 : ¬ maxAttempts ≤ n) :
    tenacityLoop out maxAttempts (fuel + 1) n =
      tenacityLoop out maxAttempts fuel (n + 1) := by
  rw [tenacityLoop, if_neg (by simp [h1]), if_neg h2]

theorem should_retry_true_of_not_false {o : Outcome}
    (h : ¬ should_retry o = false) : should_retry o = true := by
  cases hsr : should_retry o
  · exact absurd hsr h
  · rfl

theorem tenacityLoop_fst_ge (out : ℕ → Outcome) (maxAttempts : ℕ) :
    ∀ fuel n, n ≤ (tenacityLoop out maxAttempts fuel n).1 := by
  intro fuel
  induction fuel with
  | zero => intro n; simp [tenacityLoop]
  | succ fuel ih =>
      intro n
      by_cases h1 : should_retry (out n) = false
      · rw [tenacityLoop_step_done out maxAttempts fuel n h1]
      · have h1t := should_retry_true_of_not_false h1
        by_cases h2 : maxAttempts ≤ n
        · rw [tenacityLoop_step_stop out maxAttempts fuel n h1t h2]
        · rw [tenacityLoop_step_retry out maxAttempts fuel n h1t h2]
          exact le_trans (Nat.le_succ n) (ih (n + 1))

/-- The full behavioural description of the tenacity attempt loop, by
induction on the remaining fuel (which the invariant ties to
`maxAttempts`). -/
theorem tenacityLoop_spec (out : ℕ → Outcome) (maxAttempts : ℕ) :
    ∀ fuel n, n + fuel = maxAttempts → 1 ≤ n →
      n ≤ (tenacityLoop out maxAttempts fuel n).1 ∧
      (tenacityLoop out maxAttempts fuel n).1 ≤ maxAttempts ∧
      (tenacityLoop out maxAttempts fuel n).2 =
        out (tenacityLoop out maxAttempts fuel n).1 ∧
      (∀ i, n ≤ i → i < (tenacityLoop out maxAttempts fuel n).1 →
        should_retry (out i) = true) ∧
      ((tenacityLoop out maxAttempts fuel n).1 < maxAttempts →
        should_retry (out (tenacityLoop out maxAttempts fuel n).1) = false) ∧
      (should_retry (out (tenacityLoop out maxAttempts fuel n).1) = true →
        (tenacityLoop out maxAttempts fuel n).1 = maxAttempts) := by
  intro fuel
  induction fuel with
  | zero =>
      intro n hfn _
      have hn : n = maxAttempts := by omega
      subst hn
      refine ⟨le_refl _, le_refl _, rfl, ?_, ?_, ?_⟩
      · intro i h1 h2
        simp only [tenacityLoop] at h2
        omega
      · intro h
        simp only [tenacityLoop] at h
        omega
      · intro _
        rfl
  | succ fuel ih =>
      intro n hfn hn
      have hlt : n < maxAttempts := by omega
      by_cases h1 : should_retry (out n) = false
      · rw [tenacityLoop_step_done out maxAttempts fuel n h1]
        refine ⟨le_refl _, le_of_lt hlt, rfl, ?_, fun _ => h1, ?_⟩
        · intro i hi1 hi2
          simp only at hi2
          omega
        · intro hcontra
          rw [h1] at hcontra
          cases hcontra
      · have h1t := should_retry_true_of_not_false h1
        have h2 : ¬ maxAttempts ≤ n := by omega
        rw [tenacityLoop_step_retry out maxAttempts fuel n h1t h2]
        obtain ⟨ha, hb, hc, hd, he, hf⟩ := ih (n + 1) (by omega) (by omega)
        refine ⟨by omega, hb, hc, ?_, he, hf⟩
        intro i hi1 hi2
        rcases Nat.eq_or_lt_of_le hi1 with heq | hlt2
        · rw [← heq]
          exact h1t
        · exact hd i (by omega) hi2

/-! ## C2 — retry policy of the HTTP client -/

/-- C2 (confirmed): for every outcome stream and every `MAX_RETRIES`
setting, the client makes between 1 and `maxRetries + 1` attempts; the
result returned/raised to the caller is exactly the outcome of the final
attempt (the last error is re-raised, never swallowed); every non-final
attempt had a retryable outcome (status 429 or ≥ 500, or one of the
timeout/connection-reset transport errors); a final attempt below the
attempt cap had a non-retryable outcome; a non-retryable first outcome —
e.g. any 4xx other than 429 — yields exactly one attempt; and the attempt
cap is the only way a retryable final outcome ends the loop. -/
theorem C2_retry_policy (out : ℕ → Outcome) (maxRetries : ℕ) :
    1 ≤ (http_request out maxRetries).1 ∧
    (http_request out maxRetries).1 ≤ maxRetries + 1 ∧
    (http_request out maxRetries).2 = out (http_request out maxRetries).1 ∧
    (∀ i, 1 ≤ i → i < (http_request out maxRetries).1 →
      should_retry (out i) = true) ∧
    ((http_request out maxRetries).1 < maxRetries + 1 →
      should_retry (out (http_request out maxRetries).1) = false) ∧
    (should_retry (out 1) = false → (http_request out maxRetries).1 = 1) ∧
    (should_retry (out (http_request out maxRetries).1) = true →
      (http_request out maxRetries).1 = maxRetries + 1) := by
  obtain ⟨ha, hb, hc, hd, he, hf⟩ :=
    tenacityLoop_spec out (maxRetries + 1) maxRetries 1 (by omega) (le_refl 1)
  refine ⟨ha, hb, hc, hd, he, ?_, hf⟩
  intro h1
  by_contra hne
  have hgt : 1 < (http_request out maxRetries).1 :=
    lt_of_le_of_ne ha (fun h => hne h.symm)
  have := hd 1 (le_refl 1) hgt
  rw [h1] at this
  cases this

theorem C2_retry_policy_witness :
    (http_request outFiveHundredTwice 5).1 = 3 ∧
    (http_request outFiveHundredTwice 5).2 = Outcome.ok ∧
    (1 ≤ 2 ∧ 2 < (http_request outFiveHundredTwice 5).1) ∧
    should_retry (outFiveHundredTwice 2) = true ∧
    should_retry (outNotFound 1) = false ∧
    (http_request outNotFound 5).1 = 1 :=
  ⟨by decide, by decide, ⟨by decide, by decide⟩,
   (C2_retry_policy outFiveHundredTwice 5).2.2.2.1 2 (by decide) (by decide),
   by decide,
   (C2_retry_policy outNotFound 5).2.2.2.2.2.1 (by decide)⟩

/-- The spec's two mock-endpoint scenarios: 500,500,200 is retried exactly
twice then succeeds (3 attempts); 404 is attempted exactly once and the
status error is propagated. -/
theorem http_request_mock_scenarios :
    (http_request outFiveHundredTwice 3).1 = 3 ∧
    (http_request outFiveHundredTwice 3).2 = Outcome.ok ∧
    (http_request outNotFound 3).1 = 1 ∧
    (http_request outNotFound 3).2 = Outcome.status 404 := by decide

/-! ## C7 — rate limiting per attempt -/

theorem attemptTrace_length (out : ℕ → Outcome) (maxAttempts : ℕ) :
    ∀ fuel n, (attemptTrace out maxAttempts fuel n).length =
      (tenacityLoop out maxAttempts fuel n).1 + 1 - n := by
  intro fuel
  induction fuel with
  | zero => intro n; simp [attemptTrace, tenacityLoop]
  | succ fuel ih =>
      intro n
      by_cases h1 : should_retry (out n) = false
      · rw [show attemptTrace out maxAttempts (fuel + 1) n = [n] from by
            rw [attemptTrace, if_pos h1],
          tenacityLoop_step_done out maxAttempts fuel n h1]
        simp
      · have h1t := should_retry_true_of_not_false h1
        by_cases h2 : maxAttempts ≤ n
        · rw [show attemptTrace out maxAttempts (fuel + 1) n = [n] from by
              rw [attemptTrace, if_neg (by simp [h1t]), if_pos h2],
            tenacityLoop_step_stop out maxAttempts fuel n h1t h2]
          simp
        · rw [show attemptTrace out maxAttempts (fuel + 1) n =
                n :: attemptTrace out maxAttempts fuel (n + 1) from by
              rw [attemptTrace, if_neg (by simp [h1t]), if_neg h2],
            tenacityLoop_step_retry out maxAttempts fuel n h1t h2]
          have hge := tenacityLoop_fst_ge out maxAttempts fuel (n + 1)
          rw [List.length_cons, ih (n + 1)]
          omega

theorem count_acq_map_att (l : List ℕ) : (l.map Ev.att).count Ev.acq = 0 := by
  rw [List.count_eq_zero]
  intro h
  obtain ⟨n, _, hn⟩ := List.mem_map.mp h
  cases hn

/-- C7 (amended): `_request` calls `RateLimiter.acquire()` exactly once per
request — before the first attempt — when a limiter is configured, and not
at all otherwise; the retry attempts inside the tenacity loop are not
individually preceded by an acquire call (the trace holds one `acq` event
but one `att` event per attempt made). -/
theorem C7_acquire_once (out : ℕ → Outcome) (maxRetries : ℕ) :
    (request_events true out maxRetries).count Ev.acq = 1 ∧
    (request_events false out maxRetries).count Ev.acq = 0 ∧
    (request_events true out maxRetries).head? = some Ev.acq ∧
    (request_events true out maxRetries).length =
      1 + (http_request out maxRetries).1 := by
  have hcount := count_acq_map_att
    (attemptTrace out (maxRetries + 1) maxRetries 1)
  have hge := tenacityLoop_fst_ge out (maxRetries + 1) maxRetries 1
  refine ⟨?_, ?_, ?_, ?_⟩
  · simp [request_events, hcount]
  · simp [request_events, hcount]
  · simp [request_events]
  · simp only [request_events, if_true, List.length_append, List.length_map,
      List.length_cons, List.length_nil]
    rw [attemptTrace_length out (maxRetries + 1) maxRetries 1]
    unfold http_request
    omega

/-- C7 (counterexample): for the 500,500,200 endpoint the request trace is
one `acquire` followed by three attempts; the second and third attempts are
immediately preceded by another attempt, not by an `acquire` — refuting
"every individual attempt is preceded by a call to RateLimiter.acquire()". -/
theorem C7_acquire_per_attempt_counterexample :
    request_events true outFiveHundredTwice 5 =
      [Ev.acq, Ev.att 1, Ev.att 2, Ev.att 3] ∧
    (request_events true outFiveHundredTwice 5).count Ev.acq = 1 ∧
    (request_events true outFiveHundredTwice 5).get? 2 = some (Ev.att 2) ∧
    (request_events true outFiveHundredTwice 5).get? 1 = some (Ev.att 1) ∧
    Ev.att 1 ≠ Ev.acq := by decide

/-! ## C4 — backoff shape -/

theorem http_retry_wait_eq (mult maxW : ℚ) (h1 : 0 ≤ mult) (h2 : 0 ≤ maxW)
    (i : ℕ) : http_retry_wait mult maxW (i + 1) = min (mult * 2 ^ i) maxW := by
  unfold http_retry_wait tenacityWaitExponential
  rw [max_self (0 : ℚ), Nat.add_sub_cancel]
  rw [max_eq_right]
  exact le_min (by positivity) h2

theorem delayTrace_eq (out : ℕ → Outcome) (maxAttempts : ℕ) (mult maxW : ℚ) :
    ∀ fuel n, delayTrace out maxAttempts mult maxW fuel n =
      (List.range' n ((tenacityLoop out maxAttempts fuel n).1 - n)).map
        (http_retry_wait mult maxW) := by
  intro fuel
  induction fuel with
  | zero => intro n; simp [delayTrace, tenacityLoop]
  | succ fuel ih =>
      intro n
      by_cases h1 : should_retry (out n) = false
      · rw [show delayTrace out maxAttempts mult maxW (fuel + 1) n = [] from by
            rw [delayTrace, if_pos h1],
          tenacityLoop_step_done out maxAttempts fuel n h1]
        simp
      · have h1t := should_retry_true_of_not_false h1
        by_cases h2 : maxAttempts ≤ n
        · rw [show delayTrace out maxAttempts mult maxW (fuel + 1) n = [] from by
              rw [delayTrace, if_neg (by simp [h1t]), if_pos h2],
            tenacityLoop_step_stop out maxAttempts fuel n h1t h2]
          simp
        · rw [show delayTrace out maxAttempts mult maxW (fuel + 1) n =
                http_retry_wait mult maxW n ::
                  delayTrace out maxAttempts mult maxW fuel (n + 1) from by
              rw [delayTrace, if_neg (by simp [h1t]), if_neg h2],
            tenacityLoop_step_retry out maxAttempts fuel n h1t h2]
          have hge := tenacityLoop_fst_ge out maxAttempts fuel (n + 1)
          have hk : (tenacityLoop out maxAttempts fuel (n + 1)).1 - n =
              ((tenacityLoop out maxAttempts fuel (n + 1)).1 - (n + 1)) + 1 := by
            omega
          rw [hk, List.range'_succ, List.map_cons, ih (n + 1)]

/-- C4 (amended): the delay the client sleeps between attempt `i`
(0-indexed) and attempt `i+1` is the deterministic `min(base * 2^i,
maxDelay)` — tenacity's `wait_exponential`, which applies no random factor.
(The repository's `exponential_backoff_with_jitter` helper implements the
claimed full-jitter formula but is not used by the HTTP client.) -/
theorem C4_backoff_deterministic (out : ℕ → Outcome) (maxRetries i : ℕ)
    (mult maxW : ℚ) (h1 : 0 ≤ mult) (h2 : 0 ≤ maxW) :
    http_retry_wait mult maxW (i + 1) = min (mult * 2 ^ i) maxW ∧
    delayTrace out (maxRetries + 1) mult maxW maxRetries 1 =
      (List.range' 1 ((http_request out maxRetries).1 - 1)).map
        (http_retry_wait mult maxW) :=
  ⟨http_retry_wait_eq mult maxW h1 h2 i,
   delayTrace_eq out (maxRetries + 1) mult maxW maxRetries 1⟩

theorem C4_backoff_deterministic_witness :
    (0 ≤ (1 : ℚ) ∧ 0 ≤ (60 : ℚ)) ∧
    http_retry_wait 1 60 1 = min ((1 : ℚ) * 2 ^ (0 : ℕ)) 60 ∧
    delayTrace outFiveHundredTwice 6 1 60 5 1 =
      (List.range' 1 ((http_request outFiveHundredTwice 5).1 - 1)).map
        (http_retry_wait 1 60) :=
  ⟨⟨by norm_num, by norm_num⟩,
   (C4_backoff_deterministic outFiveHundredTwice 5 0 1 60 (by norm_num)
      (by norm_num)).1,
   (C4_backoff_deterministic outFiveHundredTwice 5 0 1 60 (by norm_num)
      (by norm_num)).2⟩

/-- Every value `exponential_backoff_with_jitter` can produce for a
possible draw `u ∈ [0,1)` lies in `[0, min(base * 2^attempt, max))`. -/
theorem exponential_backoff_with_jitter_mem_Ico (attempt : ℕ)
    (base maxS u : ℚ) (h0 : 0 ≤ u) (h1 : u < 1)
    (hpos : 0 < min (base * 2 ^ attempt) maxS) :
    exponential_backoff_with_jitter attempt base maxS u ∈
      Set.Ico (0 : ℚ) (min (base * 2 ^ attempt) maxS) := by
  unfold exponential_backoff_with_jitter
  constructor
  · exact mul_nonneg (le_of_lt hpos) h0
  · exact mul_lt_of_lt_one_right hpos h1

/-- C4 (counterexample): with base 1 and cap 60, the client's first
inter-attempt delay (500,500,200 endpoint) is exactly 1, while the claimed
full-jitter delay for attempt 0 is confined to `[0, min(1 * 2^0, 60)) =
[0, 1)` — so no admissible uniform draw produces the code's delay. -/
theorem C4_full_jitter_counterexample :
    delayTrace outFiveHundredTwice 6 1 60 5 1 = [1, 2] ∧
    min ((1 : ℚ) * 2 ^ (0 : ℕ)) 60 = 1 ∧
    (1 : ℚ) ∉ Set.Ico (0 : ℚ) 1 := by
  refine ⟨?_, by norm_num, by simp⟩
  rw [delayTrace_eq]
  have hk : (tenacityLoop outFiveHundredTwice 6 5 1).1 = 3 := by decide
  rw [hk]
  show ([1, 2].map (http_retry_wait 1 60)) = [1, 2]
  have hw1 : http_retry_wait 1 60 1 = 1 := by
    rw [show (1 : ℕ) = 0 + 1 from rfl, http_retry_wait_eq 1 60 (by norm_num) (by norm_num) 0]
    norm_num
  have hw2 : http_retry_wait 1 60 2 = 2 := by
    rw [show (2 : ℕ) = 1 + 1 from rfl, http_retry_wait_eq 1 60 (by norm_num) (by norm_num) 1]
    norm_num
  simp [hw1, hw2]

/-! ## Crawl-loop lemmas -/

theorem crawl_pages_stop_maxpages (fetch : ℕ → Option (ℕ × ℕ)) (s : ℕ → ℕ)
    (mp : Option ℕ) (th fuel page c : ℕ)
    (h1 : maxPagesExceeded mp page = true) :
    crawl_pages fetch s mp (some th) (fuel + 1) page c = [] := by
  rw [crawl_pages, if_pos h1]

theorem crawl_pages_stop_threshold (fetch : ℕ → Option (ℕ × ℕ)) (s : ℕ → ℕ)
    (mp : Option ℕ) (th fuel page c : ℕ)
    (h1 : maxPagesExceeded mp page = false) (h2 : th ≤ c) :
    crawl_pages fetch s mp (some th) (fuel + 1) page c = [] := by
  rw [crawl_pages, if_neg (by simp [h1]), if_pos h2]

theorem crawl_pages_stop_nofetch (fetch : ℕ → Option (ℕ × ℕ)) (s : ℕ → ℕ)
    (mp : Option ℕ) (th fuel page c : ℕ)
    (h1 : maxPagesExceeded mp page = false) (h2 : ¬ th ≤ c)
    (hf : fetch page = none) :
    crawl_pages fetch s mp (some th) (fuel + 1) page c = [] := by
  rw [crawl_pages, if_neg (by simp [h1]), if_neg h2, hf]

theorem crawl_pages_stop_noresults (fetch : ℕ → Option (ℕ × ℕ)) (s : ℕ → ℕ)
    (mp : Option ℕ) (th fuel page c t : ℕ)
    (h1 : maxPagesExceeded mp page = false) (h2 : ¬ th ≤ c)
    (hf : fetch page = some (0, t)) :
    crawl_pages fetch s mp (some th) (fuel + 1) page c = [] := by
  rw [crawl_pages, if_neg (by simp [h1]), if_neg h2, hf]
  simp

theorem crawl_pages_step (fetch : ℕ → Option (ℕ × ℕ)) (s : ℕ → ℕ)
    (mp : Option ℕ) (th fuel page c rl t : ℕ)
    (h1 : maxPagesExceeded mp page = false) (h2 : ¬ th ≤ c)
    (hf : fetch page = some (rl, t)) (hrl : rl ≠ 0) :
    crawl_pages fetch s mp (some th) (fuel + 1) page c =
      page ::
        (if t ≤ page * 100 then []
         else crawl_pages fetch s mp (some th) fuel (page + 1)
           (if 0 < s page then 0 else c + 1)) := by
  rw [crawl_pages, if_neg (by simp [h1]), if_neg h2, hf]
  simp only [hrl, if_false]

/-- Every trace of the crawl loop is a contiguous run of pages starting at
its first page. -/
theorem crawl_pages_range (fetch : ℕ → Option (ℕ × ℕ)) (s : ℕ → ℕ)
    (mp : Option ℕ) (th : ℕ) :
    ∀ fuel page c, ∃ k,
      crawl_pages fetch s mp (some th) fuel page c = List.range' page k := by
  intro fuel
  induction fuel with
  | zero => intro page c; exact ⟨0, rfl⟩
  | succ fuel ih =>
      intro page c
      by_cases h1 : maxPagesExceeded mp page = true
      · exact ⟨0, crawl_pages_stop_maxpages fetch s mp th fuel page c h1⟩
      · have h1f : maxPagesExceeded mp page = false := by simpa using h1
        by_cases h2 : th ≤ c
        · exact ⟨0, crawl_pages_stop_threshold fetch s mp th fuel page c h1f h2⟩
        · cases hf : fetch page with
          | none => exact ⟨0, crawl_pages_stop_nofetch fetch s mp th fuel page c h1f h2 hf⟩
          | some p =>
              obtain ⟨rl, t⟩ := p
              by_cases hrl : rl = 0
              · subst hrl
                exact ⟨0, crawl_pages_stop_noresults fetch s mp th fuel page c t h1f h2 hf⟩
              · rw [crawl_pages_step fetch s mp th fuel page c rl t h1f h2 hf hrl]
                by_cases ht : t ≤ page * 100
                · exact ⟨1, by rw [if_pos ht]; rfl⟩
                · obtain ⟨k, hk⟩ := ih (page + 1)
                    (if 0 < s page then 0 else c + 1)
                  refine ⟨k + 1, ?_⟩
                  rw [if_neg ht, hk, List.range'_succ]

/-- If `j` more consecutive all-failed pages would push the counter to the
threshold, page `page + j` is never fetched. -/
theorem crawl_pages_halts (fetch : ℕ → Option (ℕ × ℕ)) (s : ℕ → ℕ)
    (mp : Option ℕ) (th : ℕ) :
    ∀ fuel page c j, (∀ i, i < j → s (page + i) = 0) → th ≤ c + j →
      (page + j) ∉ crawl_pages fetch s mp (some th) fuel page c := by
  intro fuel
  induction fuel with
  | zero => intro page c j _ _; exact List.not_mem_nil _
  | succ fuel ih =>
      intro page c j hseg hth
      by_cases h1 : maxPagesExceeded mp page = true
      · rw [crawl_pages_stop_maxpages fetch s mp th fuel page c h1]
        exact List.not_mem_nil _
      · have h1f : maxPagesExceeded mp page = false := by simpa using h1
        by_cases h2 : th ≤ c
        · rw [crawl_pages_stop_threshold fetch s mp th fuel page c h1f h2]
          exact List.not_mem_nil _
        · have hj : 1 ≤ j := by omega
          cases hf : fetch page with
          | none =>
              rw [crawl_pages_stop_nofetch fetch s mp th fuel page c h1f h2 hf]
              exact List.not_mem_nil _
          | some p =>
              obtain ⟨rl, t⟩ := p
              by_cases hrl : rl = 0
              · subst hrl
                rw [crawl_pages_stop_noresults fetch s mp th fuel page c t h1f h2 hf]
                exact List.not_mem_nil _
              · rw [crawl_pages_step fetch s mp th fuel page c rl t h1f h2 hf hrl]
                have hs0 : s page = 0 := by
                  have := hseg 0 (by omega)
                  simpa using this
                rw [List.mem_cons]
                push_neg
                refine ⟨by omega, ?_⟩
                by_cases ht : t ≤ page * 100
                · rw [if_pos ht]
                  exact List.not_mem_nil _
                · rw [if_neg ht, hs0]
                  simp only [lt_irrefl, if_false]
                  have hrec := ih (page + 1) (c + 1) (j - 1)
                    (fun i hi => by
                      have := hseg (i + 1) (by omega)
                      rw [show page + 1 + i = page + (i + 1) from by omega]
                      exact this)
                    (by omega)
                  rw [show page + 1 + (j - 1) = page + j from by omega] at hrec
                  exact hrec

/-- Once the run (starting at page 1 with a zero counter) reaches the first
page of an all-failed segment of length `th`, the page after the segment is
never fetched. -/
theorem crawl_pages_halts_from_start (fetch : ℕ → Option (ℕ × ℕ)) (s : ℕ → ℕ)
    (mp : Option ℕ) (th p : ℕ) (hth : 0 < th)
    (hseg : ∀ i, i < th → s (p + i) = 0) :
    ∀ fuel page c, page ≤ p →
      (p + th) ∉ crawl_pages fetch s mp (some th) fuel page c := by
  intro fuel
  induction fuel with
  | zero => intro page c _; exact List.not_mem_nil _
  | succ fuel ih =>
      intro page c hpage
      by_cases h1 : maxPagesExceeded mp page = true
      · rw [crawl_pages_stop_maxpages fetch s mp th fuel page c h1]
        exact List.not_mem_nil _
      · have h1f : maxPagesExceeded mp page = false := by simpa using h1
        by_cases h2 : th ≤ c
        · rw [crawl_pages_stop_threshold fetch s mp th fuel page c h1f h2]
          exact List.not_mem_nil _
        · cases hf : fetch page with
          | none =>
              rw [crawl_pages_stop_nofetch fetch s mp th fuel page c h1f h2 hf]
              exact List.not_mem_nil _
          | some pr =>
              obtain ⟨rl, t⟩ := pr
              by_cases hrl : rl = 0
              · subst hrl
                rw [crawl_pages_stop_noresults fetch s mp th fuel page c t h1f h2 hf]
                exact List.not_mem_nil _
              · rw [crawl_pages_step fetch s mp th fuel page c rl t h1f h2 hf hrl]
                rw [List.mem_cons]
                push_neg
                refine ⟨by omega, ?_⟩
                by_cases ht : t ≤ page * 100
                · rw [if_pos ht]
                  exact List.not_mem_nil _
                · rw [if_neg ht]
                  rcases Nat.eq_or_lt_of_le hpage with heq | hlt
                  · subst heq
                    have hs0 : s page = 0 := by
                      have := hseg 0 hth
                      simpa using this
                    rw [hs0]
                    simp only [lt_irrefl, if_false]
                    have hrec := crawl_pages_halts fetch s mp th fuel
                      (page + 1) (c + 1) (th - 1)
                      (fun i hi => by
                        have := hseg (i + 1) (by omega)
                        rw [show page + 1 + i = page + (i + 1) from by omega]
                        exact this)
                      (by omega)
                    rw [show page + 1 + (th - 1) = page + th from by omega] at hrec
                    exact hrec
                  · exact ih (page + 1) (if 0 < s page then 0 else c + 1)
                      (by omega)

/-! ## C8 — circuit breaker -/

/-- The halt/reset dynamics the loop's code implements, conditional on a
threshold value actually being readable: (halting) if the `th` consecutive
pages `p, p+1, …, p+th-1` all end with zero successful entities, no page
from `p + th` on is ever fetched; (reset) after a page with at least one
successful entity the loop continues identically whatever the incoming
consecutive-failure count was.  With the repository's `Settings` this
branch of the loop is unreachable (see the C8 theorem below). -/
theorem crawl_pages_breaker_dynamics :
    (∀ (fetch : ℕ → Option (ℕ × ℕ)) (s : ℕ → ℕ) (mp : Option ℕ)
        (th fuel p q : ℕ), 0 < th → 1 ≤ p →
        (∀ i, i < th → s (p + i) = 0) → p + th ≤ q →
        q ∉ crawl_pages fetch s mp (some th) fuel 1 0) ∧
    (∀ (fetch : ℕ → Option (ℕ × ℕ)) (s : ℕ → ℕ) (mp : Option ℕ)
        (th fuel page c c' : ℕ), c < th → c' < th → 0 < s page →
        crawl_pages fetch s mp (some th) (fuel + 1) page c =
          crawl_pages fetch s mp (some th) (fuel + 1) page c') := by
  constructor
  · intro fetch s mp th fuel p q hth hp hseg hq hmem
    obtain ⟨k, hk⟩ := crawl_pages_range fetch s mp th fuel 1 0
    rw [hk] at hmem
    have hqk := List.mem_range'_1.mp hmem
    have hpth : (p + th) ∈ List.range' 1 k :=
      List.mem_range'_1.mpr ⟨by omega, by omega⟩
    rw [← hk] at hpth
    exact crawl_pages_halts_from_start fetch s mp th p hth hseg fuel 1 0
      hp hpth
  · intro fetch s mp th fuel page c c' hc hc' hs
    by_cases h1 : maxPagesExceeded mp page = true
    · rw [crawl_pages_stop_maxpages fetch s mp th fuel page c h1,
        crawl_pages_stop_maxpages fetch s mp th fuel page c' h1]
    · have h1f : maxPagesExceeded mp page = false := by simpa using h1
      cases hf : fetch page with
      | none =>
          rw [crawl_pages_stop_nofetch fetch s mp th fuel page c h1f (by omega) hf,
            crawl_pages_stop_nofetch fetch s mp th fuel page c' h1f (by omega) hf]
      | some pr =>
          obtain ⟨rl, t⟩ := pr
          by_cases hrl : rl = 0
          · subst hrl
            rw [crawl_pages_stop_noresults fetch s mp th fuel page c t h1f (by omega) hf,
              crawl_pages_stop_noresults fetch s mp th fuel page c' t h1f (by omega) hf]
          · rw [crawl_pages_step fetch s mp th fuel page c rl t h1f (by omega) hf hrl,
              crawl_pages_step fetch s mp th fuel page c' rl t h1f (by omega) hf hrl]
            simp only [if_pos hs]

/-- No threshold value being readable, every iteration of the loop ends the
run before fetching: the `max_pages` break and the `AttributeError` raised
by the breaker's settings read both yield an empty fetch trace. -/
theorem crawl_pages_none (fetch : ℕ → Option (ℕ × ℕ)) (s : ℕ → ℕ)
    (mp : Option ℕ) :
    ∀ fuel page c, crawl_pages fetch s mp none fuel page c = [] := by
  intro fuel page c
  cases fuel with
  | zero => rfl
  | succ fuel => rw [crawl_pages, ite_self]

/-- C8 (code bug): the claim describes the circuit breaker `run()`
implements — but the "configured consecutive-failure threshold" does not
exist.  `Settings` (parser/parser/config.py) declares no
`MAX_CONSECUTIVE_ERRORS` field and ignores extras, so the breaker check at
orchestrator.py:272 raises `AttributeError` on the very first loop
iteration, before page 1 is fetched; the `except` at line 350 catches it
and the run ends having fetched nothing, for every source and every
`max_pages` setting.  The halt/reset dynamics the claim states (proved of
the loop's code in `crawl_pages_breaker_dynamics`) are therefore
unreachable in the program as configured. -/
theorem C8_missing_threshold_code_bug :
    settings_declared_names.contains "MAX_CONSECUTIVE_ERRORS" = false ∧
    settings_MAX_CONSECUTIVE_ERRORS = none ∧
    (∀ (fetch : ℕ → Option (ℕ × ℕ)) (s : ℕ → ℕ) (mp : Option ℕ) (fuel : ℕ),
      parser_run fetch s mp fuel = []) ∧
    parser_run (fun _ => some (100, 100000)) (fun _ => 0) none 50 = [] := by
  refine ⟨by decide, rfl, ?_, ?_⟩
  · intro fetch s mp fuel
    show crawl_pages fetch s mp settings_MAX_CONSECUTIVE_ERRORS fuel 1 0 = []
    rw [show settings_MAX_CONSECUTIVE_ERRORS = none from rfl]
    exact crawl_pages_none fetch s mp fuel 1 0
  · rfl

/-! ## More dictionary lemmas, for the mark/merge analysis -/

theorem dictGet_dictSet {β : Type} (d : List (String × β)) (k1 k : String)
    (v1 : β) :
    dictGet (dictSet d k1 v1) k = if k1 = k then some v1 else dictGet d k := by
  by_cases h : k1 = k
  · subst h
    rw [if_pos rfl, dictGet_dictSet_self]
  · rw [if_neg h, dictGet_dictSet_ne d k1 k v1 h]

theorem dictGet_append {β : Type} (l1 l2 : List (String × β)) (k : String) :
    dictGet (l1 ++ l2) k =
      match dictGet l1 k with
      | some v => some v
      | none => dictGet l2 k := by
  induction l1 with
  | nil => rfl
  | cons hd tl ih =>
      by_cases h : hd.1 = k
      · simp [dictGet, h]
      · simp [dictGet, h, ih]

/-- Reading a key after a Python `d.update(kvs)`: the LAST binding of the
key in `kvs` wins, else the original dict is consulted. -/
theorem dictGet_dictUpd {β : Type} (kvs : List (String × β)) :
    ∀ (d : List (String × β)) (k : String),
      dictGet (dictUpd d kvs) k =
        match dictGet kvs.reverse k with
        | some v => some v
        | none => dictGet d k := by
  induction kvs with
  | nil => intro d k; rfl
  | cons hd tl ih =>
      intro d k
      have hstep : dictUpd d (hd :: tl) = dictUpd (dictSet d hd.1 hd.2) tl := rfl
      rw [hstep, ih (dictSet d hd.1 hd.2) k]
      rw [List.reverse_cons, dictGet_append, dictGet_dictSet]
      rcases hget : dictGet tl.reverse k with _ | v
      · by_cases h : hd.1 = k
        · simp [dictGet, h]
        · simp [dictGet, h]
      · rfl

/-! ## C6 — markProcessed merge semantics -/

/-- C6 (counterexample): `mark_anime_processed` is not a full-replace
upsert.  After a first call that stored a videos snapshot and a second call
for the same id with `videos_payload = None`, the stored record still
carries the first call's `videos` field — while the record the claim
prescribes (the entry built from the second call's arguments alone) has no
`videos` field at all, so the stored record differs from it. -/
theorem C6_full_replace_counterexample :
    dictGet (get_anime_entry c6State2 "1") "videos" =
      some (EVal.pmap c6Videos) ∧
    dictGet (marked_entry [] "1" (Value.str "T") 2 (some c6Payload)
      (some []) none "t2") "videos" = none ∧
    get_anime_entry c6State2 "1" ≠
      marked_entry [] "1" (Value.str "T") 2 (some c6Payload) (some [])
        none "t2" := by
  refine ⟨by decide, by decide, by decide⟩

/-- C6 (amended): `markProcessed` is a merge-upsert on the existing record:
`title`, `episodes_count` and `timestamp` are always overwritten;
`anime_payload`, `episodes` and `videos` are overwritten exactly when the
corresponding argument is not null, the previous value surviving otherwise;
and every other pre-existing field of the record survives unchanged. -/
theorem C6_mark_merge (processed : StateDict) (sid : String) (title : Value)
    (cnt : ℕ) (ap : Option Record) (epp vpp : Option PMap) (now : String) :
    dictGet (marked_entry processed sid title cnt ap epp vpp now) "title" =
      some (EVal.val title) ∧
    dictGet (marked_entry processed sid title cnt ap epp vpp now)
      "episodes_count" = some (EVal.val (Value.int cnt)) ∧
    dictGet (marked_entry processed sid title cnt ap epp vpp now)
      "timestamp" = some (EVal.val (Value.str now)) ∧
    dictGet (marked_entry processed sid title cnt ap epp vpp now)
        "anime_payload" =
      (match ap with
       | some a => some (EVal.record a)
       | none => dictGet (get_anime_entry processed sid) "anime_payload") ∧
    dictGet (marked_entry processed sid title cnt ap epp vpp now)
        "episodes" =
      (match epp with
       | some m => some (EVal.pmap m)
       | none => dictGet (get_anime_entry processed sid) "episodes") ∧
    dictGet (marked_entry processed sid title cnt ap epp vpp now)
        "videos" =
      (match vpp with
       | some m => some (EVal.pmap m)
       | none => dictGet (get_anime_entry processed sid) "videos") ∧
    (∀ k, k ≠ "title" → k ≠ "episodes_count" → k ≠ "timestamp" →
      k ≠ "anime_payload" → k ≠ "episodes" → k ≠ "videos" →
      dictGet (marked_entry processed sid title cnt ap epp vpp now) k =
        dictGet (get_anime_entry processed sid) k) := by
  have he : marked_entry processed sid title cnt ap epp vpp now =
      dictUpd
        (dictUpd (get_anime_entry processed sid)
          [("title", EVal.val title),
           ("episodes_count", EVal.val (Value.int cnt)),
           ("timestamp", EVal.val (Value.str now))])
        ([("anime_payload", ap.map EVal.record),
          ("episodes", epp.map EVal.pmap),
          ("videos", vpp.map EVal.pmap)].filterMap
            (fun kv => kv.2.map (fun v => (kv.1, v)))) := by
    unfold marked_entry mark_anime_processed get_anime_entry
    rw [dictGet_dictSet_self]
    rfl
  rw [he]
  rcases ap with _ | a <;> rcases epp with _ | em <;> rcases vpp with _ | vm <;>
    refine ⟨?_, ?_, ?_, ?_, ?_, ?_, ?_⟩ <;>
      first
        | (simp [dictGet_dictUpd, dictGet]; done)
        | (intro k h1 h2 h3 h4 h5 h6
           simp [dictGet_dictUpd, dictGet, Ne.symm h1, Ne.symm h2,
             Ne.symm h3, Ne.symm h4, Ne.symm h5, Ne.symm h6])

theorem C6_mark_merge_witness :
    dictGet (marked_entry c6State1 "1" (Value.str "T") 2 (some c6Payload)
      (some []) none "t2") "videos" =
      dictGet (get_anime_entry c6State1 "1") "videos" ∧
    (("extra" : String) ≠ "title" ∧ ("extra" : String) ≠ "videos") ∧
    dictGet (marked_entry c6State1 "1" (Value.str "T") 2 (some c6Payload)
      (some []) none "t2") "extra" =
      dictGet (get_anime_entry c6State1 "1") "extra" :=
  ⟨(C6_mark_merge c6State1 "1" (Value.str "T") 2 (some c6Payload)
      (some []) none "t2").2.2.2.2.2.1,
   ⟨by decide, by decide⟩,
   (C6_mark_merge c6State1 "1" (Value.str "T") 2 (some c6Payload)
      (some []) none "t2").2.2.2.2.2.2 "extra" (by decide) (by decide)
      (by decide) (by decide) (by decide) (by decide)⟩

/-! ## C1 — end-to-end idempotence -/

/-- C1 (confirmed, degenerately): for every mock catalog/metadata source —
in particular any source whose responses are identical across two
consecutive runs — and every starting state, each orchestrator run makes
zero import-API calls and leaves the persisted `CrawlState` untouched, so
the second run makes zero import-API calls and the `CrawlState` after run 2
equals the `CrawlState` after run 1.  This holds because every run aborts
at the circuit-breaker check of its first loop iteration
(`settings.MAX_CONSECUTIVE_ERRORS` is undeclared; the read raises
`AttributeError` before page 1 is fetched, and the run neither imports nor
saves anything) — not because the per-entity diffs are computed and found
empty. -/
theorem C1_second_run_zero_imports (w : MockWorld) (st : CrawlState)
    (sid now : String) :
    (run_once w st sid now).2 = [] ∧
    (run_once w st sid now).1 = st ∧
    (run_once w (run_once w st sid now).1 sid now).2 = [] ∧
    (run_once w (run_once w st sid now).1 sid now).1 =
      (run_once w st sid now).1 :=
  ⟨rfl, rfl, rfl, rfl⟩

/-- The latent pipeline behaviour behind the entity-processing code the
crawl loop can no longer reach: were `process_anime` run twice against the
unchanged one-entity source, the second pass would make zero import calls,
but it would overwrite the stored `videos` snapshot with the empty map
(`mark_anime_processed` receives only the videos imported during the
current pass), so the second pass's state would not equal the first
pass's. -/
theorem process_anime_latent_videos_wipe :
    c1Proc1.2.1 =
      [Call.importAnime c1AnimeData,
       Call.importEpisodes "1" [c1EpisodePayload],
       Call.importVideo "1:1" c1VideoPayload] ∧
    c1Proc2.2.1 = [] ∧
    dictGet (get_anime_entry c1Proc1.2.2 "1") "videos" =
      some (EVal.pmap
        [("1:1|https://cdn.example/stream.m3u8|kodik", c1VideoPayload)]) ∧
    dictGet (get_anime_entry c1Proc2.2.2 "1") "videos" =
      some (EVal.pmap []) ∧
    c1Proc2.2.2 ≠ c1Proc1.2.2 := by decide

end Ani
